import Mathlib

/-!
Verification of the feasibility-scoring and re-evaluation decision engine of the
agentic career-navigation system.  Shallow embedding of the Python agents
(`feasibility_evaluator.py`, `market_intelligence.py`, `progress_tracker.py`,
`reroute_agent.py`) over `ℚ`/`ℕ`/`String`, with theorems settling the frozen
claims about the natural-language specification.

Python floats are modelled as exact rationals; machine behaviour that the
claims depend on (the `int()` truncation in the demand score) is modelled
explicitly with `Int.floor` (all truncated values are non-negative here, where
`int()` and `⌊·⌋` agree).  Wall-clock timestamps (`datetime.now()` fields) are
reporting-only metadata never read by any decision logic and are omitted from
the session state.
-/

set_option linter.unusedVariables false
set_option linter.unnecessarySeqFocus false

namespace CareerNav

/-! ### Python string/number primitives -/

/-- Character-level helper for Python `str.title()`: an alphabetic character is
upper-cased when the previous character was not alphabetic, lower-cased
otherwise (ASCII fragment of Python's cased-character rule). -/
def pyTitleAux : List Char → Bool → List Char
  | [], _ => []
  | c :: cs, prevAlpha =>
    (if c.isAlpha then (if prevAlpha then c.toLower else c.toUpper) else c) ::
      pyTitleAux cs c.isAlpha

/-- Python `str.title()` (ASCII fragment). -/
def pyTitle (s : String) : String := ⟨pyTitleAux s.data false⟩

/-- Python `small in big` substring containment on strings. -/
def strContainsSub (big small : String) : Bool :=
  big.data.tails.any fun t => small.data.isPrefixOf t

/-- Round-half-to-even to an integer, the rule used by Python `round`. -/
def roundHalfEven (x : ℚ) : ℤ :=
  let f := ⌊x⌋
  let r := x - (f : ℚ)
  if r < 1/2 then f
  else if 1/2 < r then f + 1
  else if f % 2 = 0 then f else f + 1

/-- Python `round(x, 2)` on an exact rational. -/
def pyRound2 (x : ℚ) : ℚ := (roundHalfEven (x * 100) : ℚ) / 100

/-- Python `s.lower()` (ASCII fragment). -/
def pyLower (s : String) : String := ⟨s.data.map Char.toLower⟩

/-- Python `s.strip()`: drop whitespace from both ends. -/
def pyStrip (s : String) : String :=
  ⟨((s.data.dropWhile Char.isWhitespace).reverse.dropWhile Char.isWhitespace).reverse⟩

/-! ### FeasibilityEvaluator (src/agents/feasibility_evaluator.py) -/

/-- Embeds `FeasibilityEvaluator._calculate_skill_score`: step curve over skill match. -/
def skillScore (skillMatch : ℚ) : ℚ :=
  if skillMatch ≥ 7/10 then 1
  else if skillMatch ≥ 5/10 then 8/10
  else if skillMatch ≥ 3/10 then 6/10
  else if skillMatch ≥ 15/100 then 4/10
  else 2/10

/-- Embeds `FeasibilityEvaluator._calculate_market_score`: step curve over
`demand_score / 100`. -/
def marketScore (demandScore : ℚ) : ℚ :=
  if demandScore ≥ 8/10 then 1
  else if demandScore ≥ 6/10 then 85/100
  else if demandScore ≥ 4/10 then 65/100
  else if demandScore ≥ 2/10 then 45/100
  else 25/100

/-- Embeds `experience_levels.get(experience_level, 0.2)` used by
`_calculate_barrier_score`. -/
def experienceBaseline (experienceLevel : String) : ℚ :=
  if experienceLevel = "beginner" then 2/10
  else if experienceLevel = "intermediate" then 5/10
  else if experienceLevel = "advanced" then 9/10
  else 2/10

/-- Embeds `FeasibilityEvaluator._calculate_barrier_score`. -/
def barrierScore (entryBarrier : ℚ) (experienceLevel : String) : ℚ :=
  let studentLevel := experienceBaseline experienceLevel
  if entryBarrier ≤ studentLevel then 1
  else
    let gap := entryBarrier - studentLevel
    if gap ≤ 2/10 then 8/10
    else if gap ≤ 4/10 then 6/10
    else if gap ≤ 6/10 then 4/10
    else 2/10

/-- Embeds `capacity_multipliers.get(learning_capacity, 1.3)` used by
`_calculate_time_score`. -/
def capacityMultiplier (learningCapacity : String) : ℚ :=
  if learningCapacity = "high" then 1
  else if learningCapacity = "medium" then 13/10
  else if learningCapacity = "low" then 16/10
  else 13/10

/-- Embeds `FeasibilityEvaluator._calculate_time_score`: weeks estimate
`missing_skills_count * 4 * multiplier` bucketed into a step curve. -/
def timeScore (learningCapacity : String) (missingSkillsCount : ℕ) : ℚ :=
  let totalWeeks : ℚ := (missingSkillsCount : ℚ) * 4 * capacityMultiplier learningCapacity
  if totalWeeks ≤ 12 then 1
  else if totalWeeks ≤ 24 then 8/10
  else if totalWeeks ≤ 36 then 6/10
  else if totalWeeks ≤ 48 then 4/10
  else 2/10

/-- The weighted feasibility score computed in `FeasibilityEvaluator.evaluate`
(the exact value handed to `_make_decision`; the JSON response additionally
rounds it to two decimals for display). -/
def feasibilityScore (skillMatch demandScore entryBarrier : ℚ)
    (experienceLevel learningCapacity : String) (missingSkillsCount : ℕ) : ℚ :=
  skillScore skillMatch * (4/10) +
  marketScore demandScore * (3/10) +
  barrierScore entryBarrier experienceLevel * (2/10) +
  timeScore learningCapacity missingSkillsCount * (1/10)

/-- Verdict values of `FeasibilityEvaluator._make_decision`. -/
inductive Verdict where
  | FEASIBLE
  | CHALLENGING
  | NOT_FEASIBLE
  deriving DecidableEq, Repr

/-- Action strings of `FeasibilityEvaluator._make_decision`:
`"generate_direct_roadmap"`, `"offer_choice"`, `"suggest_reroute"`. -/
inductive Action where
  | generateDirectRoadmap
  | offerChoice
  | suggestReroute
  deriving DecidableEq, Repr

structure Decision where
  verdict : Verdict
  confidence : String
  action : Action
  warning : Option String
  deriving DecidableEq, Repr

/-- Embeds `FeasibilityEvaluator.FEASIBLE_THRESHOLD = 0.65`. -/
def FEASIBLE_THRESHOLD : ℚ := 65/100

/-- Embeds `FeasibilityEvaluator.CHALLENGING_THRESHOLD = 0.45`. -/
def CHALLENGING_THRESHOLD : ℚ := 45/100

/-- Embeds `FeasibilityEvaluator._make_decision`. -/
def makeDecision (feasibilityScore : ℚ) : Decision :=
  if feasibilityScore ≥ FEASIBLE_THRESHOLD then
    ⟨.FEASIBLE, "high", .generateDirectRoadmap, none⟩
  else if feasibilityScore ≥ CHALLENGING_THRESHOLD then
    ⟨.CHALLENGING, "medium", .offerChoice,
      some "High effort required - consider alternatives or commit to intensive learning"⟩
  else
    ⟨.NOT_FEASIBLE, "high", .suggestReroute, none⟩

/-! ### MarketIntelligenceAgent (src/agents/market_intelligence.py) -/

/-- Embeds `trend_scores.get(trend, 10)` inside `_calculate_demand_score`. -/
def trendBonus (trend : String) : ℚ :=
  if trend = "growing" then 25
  else if trend = "stable" then 15
  else if trend = "declining" then 5
  else if trend = "unknown" then 10
  else 10

/-- The growth-rate bonus of `_calculate_demand_score`. -/
def growthBonus (growthRate : ℚ) : ℚ :=
  if growthRate ≥ 20 then 15
  else if growthRate ≥ 10 then 10
  else if growthRate ≥ 0 then 5
  else 0

/-- Embeds `MarketIntelligenceAgent._calculate_demand_score`: the Python code computes
`int(base_score + trend_score + growth_score)` (truncation; the sum is always
non-negative, so `int()` coincides with `⌊·⌋`) and clamps the result to 100. -/
def calculateDemandScore (jobCount : ℕ) (trend : String) (growthRate : ℚ) : ℤ :=
  let baseScore : ℚ := min ((jobCount : ℚ) / 5000 * 60) 60
  min ⌊baseScore + trendBonus trend + growthBonus growthRate⌋ 100

/-- One entry of `skills_taxonomy["skills"]` (values in dict order); only the
fields the scoring logic reads. -/
structure TaxonomyEntry where
  canonicalName : String
  aliases : List String
  deriving DecidableEq, Repr

/-- One `must_have` / `nice_to_have` catalog entry; `frequency` is metadata the
verified logic never reads and is omitted. -/
structure SkillReq where
  name : String
  avgLearningWeeks : ℕ
  deriving DecidableEq, Repr

structure RoleSkills where
  mustHave : List SkillReq
  niceToHave : List SkillReq
  deriving DecidableEq, Repr

structure MarketData where
  totalJobs : ℕ
  trend : String
  growthRate : ℚ
  deriving DecidableEq, Repr

structure SalaryBand where
  lo : ℕ
  hi : ℕ
  currency : String
  deriving DecidableEq, Repr

structure Requirements where
  entryBarrier : ℚ
  freshersAccepted : Bool
  experience : String
  deriving DecidableEq, Repr

/-- A per-role record of `job_market.json` (`market_data["roles"][name]`). -/
structure RoleData where
  marketData : MarketData
  entrySalary : SalaryBand
  requirements : Requirements
  skills : RoleSkills
  deriving DecidableEq, Repr

/-- Embeds `MarketIntelligenceAgent._normalize_skill`: exact case-insensitive match
against a canonical name, else an alias match, else `skill.title()`. -/
def normalizeSkill (tax : List TaxonomyEntry) (skill : String) : String :=
  let skillLower := pyStrip (pyLower skill)
  match tax.find? (fun e =>
      (skillLower == pyLower e.canonicalName) ||
      ((e.aliases.map pyLower).contains skillLower)) with
  | some e => e.canonicalName
  | none => pyTitle skill

/-- Embeds `MarketIntelligenceAgent._skills_match`: exact match on lowered/stripped
forms, else substring containment either way, else equality of the lowered
normalized forms. -/
def skillsMatch (tax : List TaxonomyEntry) (skill1 skill2 : String) : Bool :=
  let s1 := pyStrip (pyLower skill1)
  let s2 := pyStrip (pyLower skill2)
  if s1 == s2 then true
  else if strContainsSub s2 s1 || strContainsSub s1 s2 then true
  else pyLower (normalizeSkill tax skill1) == pyLower (normalizeSkill tax skill2)

/-- Output of `MarketIntelligenceAgent._analyze_skill_gap`. -/
structure SkillGapResult where
  mustHaveNames : List String
  niceToHaveNames : List String
  skillMatch : ℚ
  matchedSkills : List String
  missingSkills : List String
  missingSkillsCount : ℕ
  deriving DecidableEq, Repr

/-- Embeds `MarketIntelligenceAgent._analyze_skill_gap`: normalizes both sides,
collects the normalized required skills matched by some student skill, and
reports as missing every *original* must-have name not literally present in
the matched (normalized) list; `skill_match = |matched| / |must_have|`
(0 when `must_have` is empty), rounded to two decimals in the result. -/
def analyzeSkillGap (tax : List TaxonomyEntry) (role : RoleData)
    (studentSkills : List String) : SkillGapResult :=
  let mustHaveNames := role.skills.mustHave.map SkillReq.name
  let niceNames := role.skills.niceToHave.map SkillReq.name
  let normStudent := studentSkills.map (normalizeSkill tax)
  let normRequired := mustHaveNames.map (normalizeSkill tax)
  let matched := normRequired.filter fun req => normStudent.any fun st => skillsMatch tax req st
  let missing := mustHaveNames.filter fun s => !(matched.contains s)
  let ratio : ℚ :=
    if mustHaveNames.length > 0 then (matched.length : ℚ) / (mustHaveNames.length : ℚ) else 0
  ⟨mustHaveNames, niceNames, pyRound2 ratio, matched, missing, missing.length⟩

/-- Embeds `MarketIntelligenceAgent._get_role_data`: exact key, then case-insensitive
key, then substring either way; first hit in catalog (insertion) order. -/
def getRoleData (roles : List (String × RoleData)) (roleName : String) : Option RoleData :=
  match roles.find? fun kv => kv.1 == roleName with
  | some kv => some kv.2
  | none =>
    match roles.find? fun kv => pyLower kv.1 == pyLower roleName with
    | some kv => some kv.2
    | none =>
      match roles.find? fun kv =>
          strContainsSub (pyLower kv.1) (pyLower roleName) ||
          strContainsSub (pyLower roleName) (pyLower kv.1) with
      | some kv => some kv.2
      | none => none

/-- Barrier/competition label of `_analyze_competition` (both labels use the
same brackets). -/
def barrierLabel (entryBarrier : ℚ) : String :=
  if entryBarrier ≥ 8/10 then "very_high"
  else if entryBarrier ≥ 6/10 then "high"
  else if entryBarrier ≥ 4/10 then "medium"
  else "low"

/-- Embeds `MarketIntelligenceAgent._estimate_time_to_job`: remaining learning weeks
`int(total_learning_weeks * (1 - skill_match))` plus 2 project + 2 practice
buffer weeks, bucketed into a human-readable string (Python `//` is floor
division; all quantities here are non-negative). -/
def estimateTimeToJob (skillMatch : ℚ) (role : RoleData) : String :=
  let totalLearningWeeks : ℕ := (role.skills.mustHave.map SkillReq.avgLearningWeeks).sum
  let remainingWeeks : ℤ := ⌊(totalLearningWeeks : ℚ) * (1 - skillMatch)⌋
  let totalWeeks : ℤ := remainingWeeks + 2 + 2
  if totalWeeks ≤ 4 then "1 month"
  else if totalWeeks ≤ 8 then "2 months"
  else if totalWeeks ≤ 12 then "3 months"
  else if totalWeeks ≤ 24 then toString (totalWeeks / 4) ++ " months"
  else toString (totalWeeks / 4) ++ "-" ++ toString (totalWeeks / 4 + 3) ++ " months"

/-- The `market_analysis` payload of `analyze_role_market` (the formatted
salary-range display string and the data-source/last-updated metadata are
reporting-only and omitted). -/
structure MarketAnalysis where
  role : String
  demandScore : ℤ
  activeJobs : ℕ
  trend : String
  growthRate : ℚ
  entrySalaryMin : ℕ
  entrySalaryMax : ℕ
  entryBarrier : ℚ
  entryBarrierLabel : String
  requiredMustHave : List String
  requiredNiceToHave : List String
  skillMatch : ℚ
  missingSkills : List String
  missingSkillsCount : ℕ
  competitionLevel : String
  freshersAccepted : Bool
  estimatedTimeToJob : String
  deriving DecidableEq, Repr

/-- The two possible shapes of the `analyze_role_market` return value: the
explicit not-found error record carrying the available role names, or the
market analysis. -/
inductive MarketResult where
  | notFound (error : String) (availableRoles : List String)
  | analysis (a : MarketAnalysis)
  deriving DecidableEq, Repr

/-- Embeds `MarketIntelligenceAgent.analyze_role_market`. -/
def analyzeRoleMarket (roles : List (String × RoleData)) (tax : List TaxonomyEntry)
    (roleName : String) (studentSkills : List String) : MarketResult :=
  match getRoleData roles roleName with
  | none =>
    .notFound ("Role '" ++ roleName ++ "' not found in market data") (roles.map Prod.fst)
  | some rd =>
    let gap := analyzeSkillGap tax rd studentSkills
    .analysis
      { role := roleName
        demandScore := calculateDemandScore rd.marketData.totalJobs rd.marketData.trend
          rd.marketData.growthRate
        activeJobs := rd.marketData.totalJobs
        trend := rd.marketData.trend
        growthRate := rd.marketData.growthRate
        entrySalaryMin := rd.entrySalary.lo
        entrySalaryMax := rd.entrySalary.hi
        entryBarrier := rd.requirements.entryBarrier
        entryBarrierLabel := barrierLabel rd.requirements.entryBarrier
        requiredMustHave := gap.mustHaveNames
        requiredNiceToHave := gap.niceToHaveNames
        skillMatch := gap.skillMatch
        missingSkills := gap.missingSkills
        missingSkillsCount := gap.missingSkillsCount
        competitionLevel := barrierLabel rd.requirements.entryBarrier
        freshersAccepted := rd.requirements.freshersAccepted
        estimatedTimeToJob := estimateTimeToJob gap.skillMatch rd }

/-- Absence predicate: "No exact, case-insensitive, or substring match" for a role name against
the catalog: the absence condition of the `_get_role_data` lookup chain. -/
def roleAbsent (roles : List (String × RoleData)) (roleName : String) : Prop :=
  ∀ kv ∈ roles, kv.1 ≠ roleName ∧ pyLower kv.1 ≠ pyLower roleName ∧
    strContainsSub (pyLower kv.1) (pyLower roleName) = false ∧
    strContainsSub (pyLower roleName) (pyLower kv.1) = false

/-- A catalog record whose single must-have skill name `"python"` is not fixed
by normalization (`title()` turns it into `"Python"`). -/
def pythonRole : RoleData :=
  ⟨⟨0, "unknown", 0⟩, ⟨0, 0, "INR"⟩, ⟨1/2, false, "none"⟩, ⟨[⟨"python", 4⟩], []⟩⟩

/-- A catalog record whose single must-have skill name `"Python"` is already
in canonical (title-cased) form. -/
def titleRole : RoleData :=
  ⟨⟨0, "unknown", 0⟩, ⟨0, 0, "INR"⟩, ⟨1/2, false, "none"⟩, ⟨[⟨"Python", 4⟩], []⟩⟩

/-- A catalog record with no jobs, stable trend and a deeply negative
year-over-year growth rate, no must-have skills, and a 0.9 entry barrier. -/
def negRole : RoleData :=
  ⟨⟨0, "stable", -1000⟩, ⟨0, 0, "INR"⟩, ⟨9/10, false, "senior only"⟩, ⟨[], []⟩⟩

/-! ### ProgressTracker (src/agents/progress_tracker.py)

The per-session journey state.  `datetime` fields (`start_date`,
`last_activity`, blocker timestamps) are write-only metadata never read by any
trigger logic and are omitted; the session registry (`student_states` keyed by
`session_id`, with its "Session not found" error) is plain dictionary lookup
around the per-session logic modelled here. -/

structure Blocker where
  step : ℕ
  reason : String
  attempts : ℕ
  deriving DecidableEq, Repr

structure Session where
  totalSteps : ℕ
  currentStep : ℕ
  completedSteps : List ℕ
  blockedSteps : List Blocker
  timeSpent : List (ℕ × ℚ)
  motivationLevel : ℚ
  roadmapDurations : List ℚ
  rerouteCount : ℕ
  deriving DecidableEq, Repr

/-- Embeds `ProgressTracker.initialize_journey`: fresh session state for a roadmap
(each roadmap step is represented by its `duration_weeks`). -/
def initSession (roadmapDurations : List ℚ) : Session :=
  { totalSteps := roadmapDurations.length
    currentStep := 0
    completedSteps := []
    blockedSteps := []
    timeSpent := []
    motivationLevel := 1
    roadmapDurations := roadmapDurations
    rerouteCount := 0 }

/-- Embeds `sum(state["time_spent"].values())`. -/
def totalTimeSpent (s : Session) : ℚ := (s.timeSpent.map Prod.snd).sum

/-- The expected hours for completed steps inside `_should_reevaluate`
(trigger 4): `duration_weeks * 40` summed over roadmap steps whose 1-based
index is in `completed_steps`. -/
def expectedHours (s : Session) : ℚ :=
  ((s.roadmapDurations.enum.filter fun p => s.completedSteps.contains (p.1 + 1)).map
    fun p => p.2 * 40).sum

/-- Embeds `ProgressTracker._should_reevaluate`: the five triggers, in source order.
Trigger 3 is the periodic checkpoint: completed count a positive multiple
of 3. -/
def shouldReevaluate (s : Session) : Bool :=
  if s.blockedSteps.length ≥ 2 then true
  else if s.blockedSteps.any fun b => b.attempts ≥ 3 then true
  else if 0 < s.completedSteps.length ∧ s.completedSteps.length % 3 = 0 then true
  else if 0 < s.completedSteps.length ∧ 0 < expectedHours s ∧
      totalTimeSpent s > expectedHours s * (3/2) then true
  else if s.motivationLevel < 1/2 then true
  else false

/-- Python dict assignment `d[k] = v` on an insertion-ordered association
list. -/
def dictSet (d : List (ℕ × ℚ)) (k : ℕ) (v : ℚ) : List (ℕ × ℚ) :=
  match d with
  | [] => [(k, v)]
  | (k', v') :: rest => if k' = k then (k, v) :: rest else (k', v') :: dictSet rest k v

/-- Result of `record_step_completion` (steps are modelled as naturals; the
Python `step_number < 1` rejection covers 0 and all negatives). -/
inductive CompletionResult where
  | invalidStep (step : ℕ)
  | alreadyCompleted (step : ℕ)
  | completed (step : ℕ) (progressPct : ℚ) (shouldReeval : Bool)
  deriving DecidableEq, Repr

/-- Embeds `ProgressTracker.record_step_completion`: validates the step range, returns
early on duplicates without touching state or checking re-evaluation, else
appends the step, advances `current_step`, records time (Python's
`if time_spent_hours:` truthiness skips both `None` and `0`), and evaluates
`_should_reevaluate` on the mutated state. -/
def recordStepCompletion (s : Session) (stepNumber : ℕ) (timeSpentHours : Option ℚ) :
    CompletionResult × Session :=
  if stepNumber < 1 ∨ stepNumber > s.totalSteps then (.invalidStep stepNumber, s)
  else if s.completedSteps.contains stepNumber then (.alreadyCompleted stepNumber, s)
  else
    let completedSteps' := s.completedSteps ++ [stepNumber]
    let timeSpent' :=
      match timeSpentHours with
      | some h => if h ≠ 0 then dictSet s.timeSpent stepNumber h else s.timeSpent
      | none => s.timeSpent
    let s' := { s with
      completedSteps := completedSteps'
      currentStep := stepNumber + 1
      timeSpent := timeSpent' }
    (.completed stepNumber ((completedSteps'.length : ℚ) / (s.totalSteps : ℚ) * 100)
      (shouldReevaluate s'), s')

/-- The upsert of `record_blocker`: scan `blocked_steps` for an entry with the
same step and increment its `attempts`, else append a fresh entry with the
given initial `attempts` (default 1 at every call site). -/
def upsertBlocker : List Blocker → ℕ → String → ℕ → List Blocker
  | [], step, reason, attempts => [⟨step, reason, attempts⟩]
  | b :: bs, step, reason, attempts =>
    if b.step = step then { b with attempts := b.attempts + 1 } :: bs
    else b :: upsertBlocker bs step reason attempts

/-- Result record of `record_blocker` (status `"blocker_recorded"`). -/
inductive BlockerResult where
  | recorded (step totalBlockers : ℕ) (motivationLevel : ℚ) (shouldReeval : Bool)
  deriving DecidableEq, Repr

/-- Embeds `ProgressTracker.record_blocker`: upserts into `blocked_steps` (no step
range validation in the source), recomputes
`motivation_level = max(1 - 0.2 * len(blocked_steps), 0.1)` and evaluates
`_should_reevaluate` on the mutated state. -/
def recordBlocker (s : Session) (stepNumber : ℕ) (reason : String) (attempts : ℕ := 1) :
    BlockerResult × Session :=
  let blockedSteps' := upsertBlocker s.blockedSteps stepNumber reason attempts
  let motivation' := max (1 - (blockedSteps'.length : ℚ) * (2/10)) (1/10)
  let s' := { s with blockedSteps := blockedSteps', motivationLevel := motivation' }
  (.recorded stepNumber blockedSteps'.length motivation' (shouldReevaluate s'), s')

/-- The `should_reevaluate` field of a completion response (`none` for the
error and already-completed early returns, which perform no re-evaluation
check). -/
def CompletionResult.reevalFlag : CompletionResult → Option Bool
  | .completed _ _ b => some b
  | _ => none

/-- The `should_reevaluate` field of a blocker response. -/
def BlockerResult.reeval : BlockerResult → Bool
  | .recorded _ _ _ b => b

/-- Session states of a concrete journey trace used to exercise the periodic
checkpoint: a three-step roadmap (all `duration_weeks` 0) with steps 1, 2, 3
completed in order. -/
def traceS1 : Session := (recordStepCompletion (initSession [0, 0, 0]) 1 none).2

def traceS2 : Session := (recordStepCompletion traceS1 2 none).2

def traceS3 : Session := (recordStepCompletion traceS2 3 none).2

/-! ### RerouteAgent (src/agents/reroute_agent.py) -/

/-- Embeds `trend_multipliers.get(trend, 1.0)` of `_calculate_market_demand_score`. -/
def trendMultiplier (trend : String) : ℚ :=
  if trend = "growing" then 12/10
  else if trend = "stable" then 1
  else if trend = "declining" then 8/10
  else 1

/-- Embeds `RerouteAgent._calculate_market_demand_score`:
`min(min(jobs/5000, 1.0) * trend_multiplier + min(growth_rate/100, 0.2), 1.0)`. -/
def rerouteMarketDemandScore (jobCount : ℕ) (trend : String) (growthRate : ℚ) : ℚ :=
  let base := min ((jobCount : ℚ) / 5000) 1
  let growthBonus := min (growthRate / 100) (2/10)
  min (base * trendMultiplier trend + growthBonus) 1

/-- Embeds `RerouteAgent._skills_match`: exact lowered match or substring containment
either way (unlike the market agent's matcher it neither strips nor consults
the taxonomy). -/
def rerouteSkillsMatch (skill1 skill2 : String) : Bool :=
  let s1 := pyLower skill1
  let s2 := pyLower skill2
  if s1 == s2 then true
  else strContainsSub s2 s1 || strContainsSub s1 s2

/-- Embeds `RerouteAgent._calculate_skill_overlap` (its `_normalize_skill` is
textually identical to the market agent's, reused here): 0 when `must_have`
is empty, else matched count over required count. -/
def rerouteSkillOverlap (tax : List TaxonomyEntry) (studentSkills : List String)
    (roleSkills : RoleSkills) : ℚ :=
  let required := roleSkills.mustHave.map SkillReq.name
  if required.isEmpty then 0
  else
    let studentNorm := studentSkills.map (normalizeSkill tax)
    let requiredNorm := required.map (normalizeSkill tax)
    ((requiredNorm.filter fun req => studentNorm.any fun st => rerouteSkillsMatch req st).length : ℚ)
      / (required.length : ℚ)

/-- One entry of `stepping_stones[original_role]`. -/
structure SteppingStone where
  intermediateRole : String
  recommended : Bool
  deriving DecidableEq, Repr

/-- One entry of `career_graph[role]["typical_next_roles"]`;
`transition_probability` is `none` when the key is absent (the code then
defaults to 0.5). -/
structure NextRole where
  role : String
  transitionProbability : Option ℚ
  deriving DecidableEq, Repr

structure CareerGraphEntry where
  typicalNextRoles : List NextRole
  deriving DecidableEq, Repr

/-- Embeds `career_paths.json`: the career graph and stepping-stone tables. -/
structure CareerPaths where
  careerGraph : List (String × CareerGraphEntry)
  steppingStones : List (String × List SteppingStone)
  deriving DecidableEq, Repr

/-- Python `d[k]` / `d.get(k)` on an insertion-ordered association list. -/
def lookupDict {α : Type} (d : List (String × α)) (k : String) : Option α :=
  (d.find? fun kv => kv.1 == k).map Prod.snd

/-- The stepping-stone early return of
`RerouteAgent._calculate_progression_potential`: 0.9 when the matching stone
is flagged recommended, 0.7 otherwise; `none` when the table has no entry for
the original role or no stone names the alternative. -/
def progressionStones (careerPaths : CareerPaths) (alternativeRole originalRole : String) :
    Option ℚ :=
  match lookupDict careerPaths.steppingStones originalRole with
  | none => none
  | some stones =>
    match stones.find? fun st => pyLower st.intermediateRole == pyLower alternativeRole with
    | some st => some (if st.recommended then 9/10 else 7/10)
    | none => none

/-- The career-graph early return of `_calculate_progression_potential`:
the first `typical_next_roles` entry of the alternative naming the original
role yields its transition probability (0.5 when the key is absent). -/
def progressionGraph (careerPaths : CareerPaths) (alternativeRole originalRole : String) :
    Option ℚ :=
  match lookupDict careerPaths.careerGraph alternativeRole with
  | none => none
  | some entry =>
    match entry.typicalNextRoles.find? fun nr => pyLower nr.role == pyLower originalRole with
    | some nr => some (nr.transitionProbability.getD (1/2))
    | none => none

/-- The skill-similarity fallback of `_calculate_progression_potential`:
`|alt_must_have ∩ orig_must_have| / |orig_must_have| * 0.6` on the
deduplicated (set) name lists when both roles exist in the catalog with
non-empty skill sets, else the 0.3 default. -/
def progressionFallback (roles : List (String × RoleData))
    (alternativeRole originalRole : String) : ℚ :=
  match lookupDict roles alternativeRole, lookupDict roles originalRole with
  | some altData, some origData =>
    let altSkills := (altData.skills.mustHave.map SkillReq.name).dedup
    let origSkills := (origData.skills.mustHave.map SkillReq.name).dedup
    if altSkills ≠ [] ∧ origSkills ≠ [] then
      ((altSkills.filter fun sk => origSkills.contains sk).length : ℚ)
        / (origSkills.length : ℚ) * (6/10)
    else 3/10
  | _, _ => 3/10

/-- Embeds `RerouteAgent._calculate_progression_potential`: stepping-stone table
(0.9 recommended / 0.7 otherwise), else career-graph transition probability
(default 0.5), else Jaccard-style must-have overlap of the two roles scaled by
0.6, else 0.3 — the three early returns of the Python method in order. -/
def progressionPotential (careerPaths : CareerPaths) (roles : List (String × RoleData))
    (alternativeRole originalRole : String) : ℚ :=
  match progressionStones careerPaths alternativeRole originalRole with
  | some v => v
  | none =>
    match progressionGraph careerPaths alternativeRole originalRole with
    | some v => v
    | none => progressionFallback roles alternativeRole originalRole

/-- Embeds `RerouteAgent._calculate_barrier_score`: 1.0 when the barrier is within the
student's level, else `max(1 - gap*1.5, 0)` — a distinct formula from
`FeasibilityEvaluator._calculate_barrier_score` (it shares only the experience
baseline map). -/
def rerouteBarrierScore (entryBarrier : ℚ) (experienceLevel : String) : ℚ :=
  let studentLevel := experienceBaseline experienceLevel
  if entryBarrier ≤ studentLevel then 1
  else max (1 - (entryBarrier - studentLevel) * (3/2)) 0

/-- Score breakdown of `RerouteAgent._calculate_role_score` (the JSON response
additionally rounds every component to three decimals for display). -/
structure RoleScoreBreakdown where
  totalScore : ℚ
  skillOverlap : ℚ
  marketDemand : ℚ
  progressionPotential : ℚ
  easeOfEntry : ℚ
  deriving DecidableEq, Repr

/-- Embeds `RerouteAgent._calculate_role_score`: the weighted multi-criteria score
`0.35*skill_overlap + 0.30*market_demand + 0.20*progression + 0.15*barrier`. -/
def calculateRoleScore (tax : List TaxonomyEntry) (careerPaths : CareerPaths)
    (roles : List (String × RoleData)) (roleName : String) (roleData : RoleData)
    (studentSkills : List String) (failedRole : String) (experienceLevel : String) :
    RoleScoreBreakdown :=
  let so := rerouteSkillOverlap tax studentSkills roleData.skills
  let ms := rerouteMarketDemandScore roleData.marketData.totalJobs roleData.marketData.trend
    roleData.marketData.growthRate
  let pp := progressionPotential careerPaths roles roleName failedRole
  let bs := rerouteBarrierScore roleData.requirements.entryBarrier experienceLevel
  ⟨so * (35/100) + ms * (30/100) + pp * (20/100) + bs * (15/100), so, ms, pp, bs⟩

/-! ### Theorems -/

/-- C1: the verdict of `FeasibilityEvaluator._make_decision` is `FEASIBLE`
exactly when the feasibility score is ≥ 0.65, `CHALLENGING` exactly when it is
in [0.45, 0.65), and `NOT_FEASIBLE` otherwise; both boundaries are closed
above (0.65 ↦ FEASIBLE, 0.45 ↦ CHALLENGING), and the associated actions are
`generate_direct_roadmap`, `offer_choice` and `suggest_reroute` (reroute)
respectively. -/
theorem makeDecision_thresholds (s : ℚ) :
    ((makeDecision s).verdict = .FEASIBLE ↔ 65/100 ≤ s) ∧
    ((makeDecision s).verdict = .CHALLENGING ↔ 45/100 ≤ s ∧ s < 65/100) ∧
    ((makeDecision s).verdict = .NOT_FEASIBLE ↔ s < 45/100) ∧
    ((makeDecision s).verdict = .FEASIBLE ↔ (makeDecision s).action = .generateDirectRoadmap) ∧
    ((makeDecision s).verdict = .CHALLENGING ↔ (makeDecision s).action = .offerChoice) ∧
    ((makeDecision s).verdict = .NOT_FEASIBLE ↔ (makeDecision s).action = .suggestReroute) ∧
    (makeDecision (65/100)).verdict = .FEASIBLE ∧
    (makeDecision (45/100)).verdict = .CHALLENGING := by
  unfold makeDecision FEASIBLE_THRESHOLD CHALLENGING_THRESHOLD
  refine ⟨?_, ?_, ?_, ?_, ?_, ?_, by norm_num, by norm_num⟩ <;>
    split_ifs with h1 h2 <;> simp_all <;> linarith

/-- C2: the feasibility score computed by `FeasibilityEvaluator.evaluate` is
the convex combination `0.4*skill + 0.3*market + 0.2*barrier + 0.1*time` of
four factor scores, each factor lies in [0,1], the weights sum to 1, and hence
the feasibility score lies in [0,1] for every input. -/
theorem feasibilityScore_convex (sm ds eb : ℚ) (exp cap : String) (msc : ℕ) :
    feasibilityScore sm ds eb exp cap msc =
      (4/10) * skillScore sm + (3/10) * marketScore ds +
      (2/10) * barrierScore eb exp + (1/10) * timeScore cap msc ∧
    (4/10 + 3/10 + 2/10 + 1/10 : ℚ) = 1 ∧
    (0 ≤ skillScore sm ∧ skillScore sm ≤ 1) ∧
    (0 ≤ marketScore ds ∧ marketScore ds ≤ 1) ∧
    (0 ≤ barrierScore eb exp ∧ barrierScore eb exp ≤ 1) ∧
    (0 ≤ timeScore cap msc ∧ timeScore cap msc ≤ 1) ∧
    0 ≤ feasibilityScore sm ds eb exp cap msc ∧
    feasibilityScore sm ds eb exp cap msc ≤ 1 := by
  have hs : 0 ≤ skillScore sm ∧ skillScore sm ≤ 1 := by
    unfold skillScore; split_ifs <;> norm_num
  have hm : 0 ≤ marketScore ds ∧ marketScore ds ≤ 1 := by
    unfold marketScore; split_ifs <;> norm_num
  have hb : 0 ≤ barrierScore eb exp ∧ barrierScore eb exp ≤ 1 := by
    unfold barrierScore; dsimp only; split_ifs <;> norm_num
  have ht : 0 ≤ timeScore cap msc ∧ timeScore cap msc ≤ 1 := by
    unfold timeScore; dsimp only; split_ifs <;> norm_num
  refine ⟨by unfold feasibilityScore; ring, by norm_num, hs, hm, hb, ht, ?_, ?_⟩ <;>
    · unfold feasibilityScore
      obtain ⟨hs1, hs2⟩ := hs; obtain ⟨hm1, hm2⟩ := hm
      obtain ⟨hb1, hb2⟩ := hb; obtain ⟨ht1, ht2⟩ := ht
      linarith

/-- C3 counterexample: the claim says the demand score *equals*
`min(jobs/5000*60, 60) + trend_bonus + growth_bonus` (clamped), but the code
truncates with `int()` first: at `jobs = 100, trend = "growing",
growth_rate = 25` the claimed formula gives 41.2 while the code returns 41. -/
theorem demandScore_formula_counterexample :
    ((calculateDemandScore 100 "growing" 25 : ℚ) ≠
      min ((100 : ℚ) / 5000 * 60) 60 + trendBonus "growing" + growthBonus 25) ∧
    calculateDemandScore 100 "growing" 25 = 41 ∧
    min ((100 : ℚ) / 5000 * 60) 60 + trendBonus "growing" + growthBonus 25 = 206/5 := by
  have h1 : trendBonus "growing" = 25 := by simp [trendBonus]
  have h2 : growthBonus 25 = 15 := by norm_num [growthBonus]
  have h3 : calculateDemandScore 100 "growing" 25 = 41 := by
    unfold calculateDemandScore
    rw [h1, h2]
    norm_num
  refine ⟨?_, h3, ?_⟩ <;> rw [h1, h2] <;> norm_num [h3]

/-- C3 (amended): the demand score equals the integer truncation of
`min(jobs/5000*60, 60) + trend_bonus + growth_bonus`, clamped to 100, with the
trend bonus {growing:25, stable:15, declining:5, unknown:10 (also the default)}
and growth bonus 15/10/5/0 at the ≥20 / ≥10 / ≥0 / negative brackets; the
result always lies in [0,100], and the two literal scenarios of the spec hold:
`demand_score(5000, "growing", 25) = 100` and
`demand_score(0, "unknown", -5) = 10`. -/
theorem demandScore_truncated_spec (jc : ℕ) (trend : String) (gr : ℚ) :
    calculateDemandScore jc trend gr =
      min ⌊min ((jc : ℚ) / 5000 * 60) 60 + trendBonus trend + growthBonus gr⌋ 100 ∧
    0 ≤ calculateDemandScore jc trend gr ∧
    calculateDemandScore jc trend gr ≤ 100 ∧
    calculateDemandScore 5000 "growing" 25 = 100 ∧
    calculateDemandScore 0 "unknown" (-5) = 10 := by
  have hbase : 0 ≤ min ((jc : ℚ) / 5000 * 60) 60 := by
    have : (0 : ℚ) ≤ (jc : ℚ) / 5000 * 60 := by positivity
    exact le_min this (by norm_num)
  have htrend : 0 ≤ trendBonus trend := by unfold trendBonus; split_ifs <;> norm_num
  have hgrowth : 0 ≤ growthBonus gr := by unfold growthBonus; split_ifs <;> norm_num
  have hex1 : calculateDemandScore 5000 "growing" 25 = 100 := by
    have h1 : trendBonus "growing" = 25 := by simp [trendBonus]
    have h2 : growthBonus 25 = 15 := by norm_num [growthBonus]
    unfold calculateDemandScore; rw [h1, h2]; norm_num
  have hex2 : calculateDemandScore 0 "unknown" (-5) = 10 := by
    have h1 : trendBonus "unknown" = 10 := by simp [trendBonus]
    have h2 : growthBonus (-5) = 0 := by norm_num [growthBonus]
    unfold calculateDemandScore; rw [h1, h2]; norm_num
  refine ⟨rfl, ?_, ?_, hex1, hex2⟩
  · exact le_min (Int.floor_nonneg.mpr (by linarith)) (by norm_num)
  · exact min_le_right _ _

/-! #### ProgressTracker helper lemmas -/

theorem recordBlocker_blockedSteps (s : Session) (st : ℕ) (r : String) (a : ℕ) :
    (recordBlocker s st r a).2.blockedSteps = upsertBlocker s.blockedSteps st r a := rfl

theorem recordBlocker_motivation (s : Session) (st : ℕ) (r : String) (a : ℕ) :
    (recordBlocker s st r a).2.motivationLevel =
      max (1 - ((upsertBlocker s.blockedSteps st r a).length : ℚ) * (2/10)) (1/10) := rfl

theorem recordBlocker_reeval (s : Session) (st : ℕ) (r : String) (a : ℕ) :
    (recordBlocker s st r a).1.reeval = shouldReevaluate (recordBlocker s st r a).2 := rfl

theorem shouldReevaluate_of_two_blocked (s : Session) (h : 2 ≤ s.blockedSteps.length) :
    shouldReevaluate s = true := by
  unfold shouldReevaluate
  rw [if_pos h]

theorem upsertBlocker_fresh (l : List Blocker) (st : ℕ) (r : String) (a : ℕ)
    (h : ∀ b ∈ l, b.step ≠ st) : upsertBlocker l st r a = l ++ [⟨st, r, a⟩] := by
  induction l with
  | nil => rfl
  | cons b bs ih =>
    have hb : b.step ≠ st := h b (List.mem_cons_self b bs)
    simp only [upsertBlocker, if_neg hb, List.cons_append]
    rw [ih fun x hx => h x (List.mem_cons_of_mem b hx)]

theorem upsertBlocker_step_mem (l : List Blocker) (st : ℕ) (r : String) (a : ℕ) :
    st ∈ (upsertBlocker l st r a).map Blocker.step := by
  induction l with
  | nil => simp [upsertBlocker]
  | cons b bs ih =>
    by_cases hb : b.step = st
    · simp only [upsertBlocker, if_pos hb, List.map_cons, List.mem_cons]
      exact Or.inl hb.symm
    · simp only [upsertBlocker, if_neg hb, List.map_cons, List.mem_cons]
      exact Or.inr ih

theorem upsertBlocker_step_mono (l : List Blocker) (st : ℕ) (r : String) (a : ℕ)
    {x : ℕ} (hx : x ∈ l.map Blocker.step) :
    x ∈ (upsertBlocker l st r a).map Blocker.step := by
  induction l with
  | nil => simp at hx
  | cons b bs ih =>
    rw [List.map_cons, List.mem_cons] at hx
    by_cases hb : b.step = st
    · simp only [upsertBlocker, if_pos hb, List.map_cons, List.mem_cons]
      rcases hx with h | h
      · exact Or.inl h
      · exact Or.inr h
    · simp only [upsertBlocker, if_neg hb, List.map_cons, List.mem_cons]
      rcases hx with h | h
      · exact Or.inl h
      · exact Or.inr (ih h)

theorem upsertBlocker_append_incr (l : List Blocker) (st : ℕ) (r r' : String)
    (h : ∀ b ∈ l, b.step ≠ st) :
    upsertBlocker (l ++ [⟨st, r, 1⟩]) st r' 1 = l ++ [⟨st, r, 2⟩] := by
  induction l with
  | nil => simp [upsertBlocker]
  | cons b bs ih =>
    have hb : b.step ≠ st := h b (List.mem_cons_self b bs)
    simp only [List.cons_append, upsertBlocker, if_neg hb, List.append_eq]
    rw [ih fun x hx => h x (List.mem_cons_of_mem b hx)]

theorem two_le_length_of_two_mem {xs : List ℕ} {a b : ℕ} (ha : a ∈ xs) (hb : b ∈ xs)
    (hab : a ≠ b) : 2 ≤ xs.length := by
  cases xs with
  | nil => simp at ha
  | cons x xs' =>
    cases xs' with
    | nil =>
      simp only [List.mem_singleton] at ha hb
      exact absurd (ha.trans hb.symm) hab
    | cons y ys => simp

/-- C4 counterexample: the periodic checkpoint has no once-per-checkpoint
latch.  After completing steps 1, 2, 3 of a fresh three-step journey (the
third completion duly reports the checkpoint), a subsequent *blocker report*
re-fires it: `record_blocker` answers `should_reevaluate = true` although its
own state shows a single blocked step with one attempt, motivation 0.8 ≥ 0.5
and no time recorded — so only the completed-count-multiple-of-3 trigger can
be responsible, contradicting the claim that no later event fires the same
checkpoint again. -/
theorem checkpoint_refires_counterexample :
    (recordStepCompletion traceS2 3 none).1.reevalFlag = some true ∧
    (recordBlocker traceS3 1 "stuck" 1).1.reeval = true ∧
    (recordBlocker traceS3 1 "stuck" 1).2.blockedSteps = [⟨1, "stuck", 1⟩] ∧
    (recordBlocker traceS3 1 "stuck" 1).2.motivationLevel = 4/5 ∧
    traceS3.completedSteps = [1, 2, 3] ∧
    traceS3.timeSpent = [] := by
  refine ⟨rfl, rfl, rfl, ?_, rfl, rfl⟩
  rw [recordBlocker_motivation]
  show max (1 - ((1 : ℕ) : ℚ) * (2/10)) (1/10) = 4/5
  rw [max_eq_left] <;> norm_num

/-- C4 (amended): the periodic checkpoint is stateless.  Whenever no other
trigger can fire (no blocked steps, no recorded time, motivation ≥ 0.5),
`_should_reevaluate` reports exactly the condition "completed count is a
positive multiple of 3" — so completing the 3rd, 6th, 9th step reports it,
completing a step that brings the count to 4 or 5 does not, duplicate
completions never re-evaluate (their early return, claim C10), but *any*
later event evaluated while the count is still a multiple of 3 (e.g. a
blocker report) reports it again. -/
theorem checkpoint_trigger_stateless (s : Session)
    (hb : s.blockedSteps = []) (ht : s.timeSpent = []) (hm : 1/2 ≤ s.motivationLevel) :
    shouldReevaluate s =
      decide (0 < s.completedSteps.length ∧ s.completedSteps.length % 3 = 0) := by
  unfold shouldReevaluate
  split_ifs with h1 h2 h3 h4 h5
  · rw [hb] at h1; simp at h1
  · rw [hb] at h2; simp at h2
  · simp [h3]
  · exfalso
    obtain ⟨-, he, hgt⟩ := h4
    have hts : totalTimeSpent s = 0 := by simp [totalTimeSpent, ht]
    rw [hts] at hgt
    nlinarith
  · exact absurd h5 (not_lt.mpr hm)
  · simp [h3]

/-- Witness for C4 (amended): a clean session with exactly three completed
steps re-evaluates. -/
theorem checkpoint_trigger_stateless_witness :
    shouldReevaluate ⟨5, 4, [1, 2, 3], [], [], 1, [0, 0, 0, 0, 0], 0⟩ = true := by
  have h := checkpoint_trigger_stateless ⟨5, 4, [1, 2, 3], [], [], 1, [0, 0, 0, 0, 0], 0⟩
    rfl rfl (by norm_num)
  rw [h]
  decide

/-- C5: `record_blocker` upserts: from a state with no blocker entry for a
step, recording a blocker on that step twice leaves exactly one entry for it
with `attempts = 2` (and grows the blocked list by exactly one); recording
blockers on two distinct steps (from any state) makes `should_reevaluate`
true; and after every `record_blocker` call
`motivation_level = max(1 - 0.2 * blocker_count, 0.1)` where `blocker_count`
is the number of blocked-step entries. -/
theorem recordBlocker_upsert_spec (s : Session) (st st₁ st₂ : ℕ) (r r' r₁ r₂ : String)
    (hfresh : ∀ b ∈ s.blockedSteps, b.step ≠ st) (hne : st₁ ≠ st₂) :
    ((recordBlocker (recordBlocker s st r 1).2 st r' 1).2.blockedSteps.filter
        (fun b => b.step == st) = [⟨st, r, 2⟩] ∧
      (recordBlocker (recordBlocker s st r 1).2 st r' 1).2.blockedSteps.length =
        s.blockedSteps.length + 1) ∧
    (recordBlocker (recordBlocker s st₁ r₁ 1).2 st₂ r₂ 1).1.reeval = true ∧
    (recordBlocker s st r 1).2.motivationLevel =
      max (1 - ((recordBlocker s st r 1).2.blockedSteps.length : ℚ) * (2/10)) (1/10) := by
  have h1 : (recordBlocker s st r 1).2.blockedSteps = s.blockedSteps ++ [⟨st, r, 1⟩] := by
    rw [recordBlocker_blockedSteps]
    exact upsertBlocker_fresh _ _ _ _ hfresh
  have h2 : (recordBlocker (recordBlocker s st r 1).2 st r' 1).2.blockedSteps =
      s.blockedSteps ++ [⟨st, r, 2⟩] := by
    rw [recordBlocker_blockedSteps, h1]
    exact upsertBlocker_append_incr _ _ _ _ hfresh
  refine ⟨⟨?_, ?_⟩, ?_, ?_⟩
  · rw [h2, List.filter_append]
    have hnil : s.blockedSteps.filter (fun b => b.step == st) = [] :=
      List.filter_eq_nil_iff.mpr fun b hb => by simp [hfresh b hb]
    rw [hnil]
    simp
  · rw [h2]
    simp
  · rw [recordBlocker_reeval]
    apply shouldReevaluate_of_two_blocked
    have hmem₁ : st₁ ∈ (recordBlocker (recordBlocker s st₁ r₁ 1).2 st₂ r₂ 1).2.blockedSteps.map
        Blocker.step := by
      rw [recordBlocker_blockedSteps]
      exact upsertBlocker_step_mono _ _ _ _
        (by rw [recordBlocker_blockedSteps]; exact upsertBlocker_step_mem _ _ _ _)
    have hmem₂ : st₂ ∈ (recordBlocker (recordBlocker s st₁ r₁ 1).2 st₂ r₂ 1).2.blockedSteps.map
        Blocker.step := by
      rw [recordBlocker_blockedSteps]
      exact upsertBlocker_step_mem _ _ _ _
    have := two_le_length_of_two_mem hmem₁ hmem₂ hne
    simpa using this
  · rw [recordBlocker_motivation, recordBlocker_blockedSteps]

/-- Witness for C5: a fresh three-step journey, blocking step 1 twice leaves
exactly the single entry `⟨1, _, 2⟩`. -/
theorem recordBlocker_upsert_witness :
    (recordBlocker (recordBlocker (initSession [0, 0, 0]) 1 "api confusion" 1).2 1
        "api confusion" 1).2.blockedSteps.filter (fun b => b.step == 1) =
      [⟨1, "api confusion", 2⟩] :=
  (recordBlocker_upsert_spec (initSession [0, 0, 0]) 1 1 2 "api confusion" "api confusion"
    "x" "y" (by simp [initSession]) (by norm_num)).1.1

/-- C9 counterexample: `record_blocker` performs no step-range validation at
all: blocking step 0 of a fresh three-step journey (0 is outside [1,3]) is not
rejected — it mutates the session, appending a blocked-step entry and dropping
`motivation_level` to 0.8. -/
theorem recordBlocker_no_validation_counterexample :
    (0 : ℕ) < 1 ∧
    (recordBlocker (initSession [0, 0, 0]) 0 "stuck" 1).2.blockedSteps =
      [⟨0, "stuck", 1⟩] ∧
    (recordBlocker (initSession [0, 0, 0]) 0 "stuck" 1).2 ≠ initSession [0, 0, 0] ∧
    (recordBlocker (initSession [0, 0, 0]) 0 "stuck" 1).2.motivationLevel = 4/5 := by
  have hb : (recordBlocker (initSession [0, 0, 0]) 0 "stuck" 1).2.blockedSteps =
      [⟨0, "stuck", 1⟩] := by
    rw [recordBlocker_blockedSteps]
    rfl
  refine ⟨by norm_num, hb, ?_, ?_⟩
  · intro heq
    rw [heq] at hb
    simp [initSession] at hb
  · rw [recordBlocker_motivation]
    show max (1 - ((1 : ℕ) : ℚ) * (2/10)) (1/10) = 4/5
    rw [max_eq_left] <;> norm_num

/-- C9 (amended): only `record_step_completion` validates the step range: a
step number outside [1, total_steps] is rejected with an explicit error value
and the session state is returned unchanged (no field is mutated);
`record_blocker` has no such validation (see the counterexample). -/
theorem recordStepCompletion_rejects_out_of_range (s : Session) (step : ℕ) (h : Option ℚ)
    (hout : step < 1 ∨ s.totalSteps < step) :
    recordStepCompletion s step h = (.invalidStep step, s) := by
  unfold recordStepCompletion
  rw [if_pos hout]

/-- Witness for C9: step 5 of a one-step journey is rejected unchanged. -/
theorem recordStepCompletion_rejects_witness :
    recordStepCompletion (initSession [0]) 5 none = (.invalidStep 5, initSession [0]) :=
  recordStepCompletion_rejects_out_of_range (initSession [0]) 5 none (Or.inr (by decide))

/-- C10: completing an already-completed step (within range) returns the
`already_completed` status, leaves the whole session state unchanged, and
performs no re-evaluation check (the early return carries no
`should_reevaluate` flag). -/
theorem recordStepCompletion_duplicate_noop (s : Session) (step : ℕ) (h : Option ℚ)
    (h1 : 1 ≤ step) (h2 : step ≤ s.totalSteps) (hmem : step ∈ s.completedSteps) :
    recordStepCompletion s step h = (.alreadyCompleted step, s) ∧
    (recordStepCompletion s step h).1.reevalFlag = none := by
  have hres : recordStepCompletion s step h = (.alreadyCompleted step, s) := by
    unfold recordStepCompletion
    rw [if_neg (by omega), if_pos (by simpa using hmem)]
  exact ⟨hres, by rw [hres]; rfl⟩

/-- Witness for C10: re-completing step 2 of a session that already completed
it is a no-op. -/
theorem recordStepCompletion_duplicate_witness :
    recordStepCompletion ⟨3, 3, [2], [], [], 1, [0, 0, 0], 0⟩ 2 none =
      (.alreadyCompleted 2, ⟨3, 3, [2], [], [], 1, [0, 0, 0], 0⟩) :=
  (recordStepCompletion_duplicate_noop ⟨3, 3, [2], [], [], 1, [0, 0, 0], 0⟩ 2 none
    (by norm_num) (by decide) (by simp)).1

/-! #### Skill-gap round trip -/

theorem skillsMatch_refl (tax : List TaxonomyEntry) (x : String) :
    skillsMatch tax x x = true := by
  unfold skillsMatch
  simp

theorem pyRound2_one : pyRound2 1 = 1 := by
  have hf : ⌊(1 : ℚ) * 100⌋ = 100 := by norm_num
  simp only [pyRound2, roundHalfEven, hf]
  norm_num

/-- C7 counterexample: with an empty taxonomy and a role whose single
must-have skill is `"python"`, a student holding exactly `"python"` (the
must-have list verbatim) gets `skill_match = 1.0` but `missing_skills =
["python"]` (count 1), because `_analyze_skill_gap` compares the *original*
must-have names against the *normalized* matched names
(`"python".title() = "Python"`). -/
theorem skillGap_roundtrip_counterexample :
    pythonRole.skills.mustHave.map SkillReq.name = ["python"] ∧
    ("python" : String) ∈ ["python"] ∧
    (analyzeSkillGap [] pythonRole ["python"]).skillMatch = 1 ∧
    (analyzeSkillGap [] pythonRole ["python"]).missingSkills = ["python"] ∧
    (analyzeSkillGap [] pythonRole ["python"]).missingSkillsCount = 1 := by
  refine ⟨rfl, by simp, ?_, rfl, rfl⟩
  have h : (analyzeSkillGap [] pythonRole ["python"]).skillMatch =
      pyRound2 (((1 : ℕ) : ℚ) / ((1 : ℕ) : ℚ)) := rfl
  rw [h]
  norm_num
  exact pyRound2_one

/-- C7 (amended): if the student skill list contains every must-have name
verbatim then `skill_match = 1.0`; the claimed `missing_skills = []` holds
only under the additional assumption that every must-have name is fixed by
`_normalize_skill` (i.e. is already in canonical/title-cased form) — see the
counterexample otherwise. -/
theorem skillGap_full_match_spec (tax : List TaxonomyEntry) (role : RoleData)
    (student : List String)
    (hne : role.skills.mustHave ≠ [])
    (hsub : ∀ n ∈ role.skills.mustHave.map SkillReq.name, n ∈ student) :
    (analyzeSkillGap tax role student).skillMatch = 1 ∧
    ((∀ n ∈ role.skills.mustHave.map SkillReq.name, normalizeSkill tax n = n) →
      (analyzeSkillGap tax role student).missingSkills = [] ∧
      (analyzeSkillGap tax role student).missingSkillsCount = 0) := by
  have hmatched : ((role.skills.mustHave.map SkillReq.name).map (normalizeSkill tax)).filter
      (fun req => (student.map (normalizeSkill tax)).any fun st => skillsMatch tax req st) =
      (role.skills.mustHave.map SkillReq.name).map (normalizeSkill tax) := by
    apply List.filter_eq_self.mpr
    intro req hreq
    obtain ⟨n, hn, rfl⟩ := List.mem_map.mp hreq
    exact List.any_eq_true.mpr ⟨normalizeSkill tax n, List.mem_map_of_mem _ (hsub n hn),
      skillsMatch_refl tax _⟩
  have hpos : 0 < (role.skills.mustHave.map SkillReq.name).length :=
    List.length_pos.mpr fun hnil => hne (List.map_eq_nil_iff.mp hnil)
  constructor
  · show pyRound2 _ = 1
    simp only [analyzeSkillGap, hmatched]
    rw [if_pos hpos, List.length_map,
      div_self (Nat.cast_ne_zero.mpr (Nat.pos_iff_ne_zero.mp hpos))]
    exact pyRound2_one
  · intro hid
    have hmapid : (role.skills.mustHave.map SkillReq.name).map (normalizeSkill tax) =
        role.skills.mustHave.map SkillReq.name := by
      have := List.map_congr_left hid
      simpa using this
    have hmiss : (analyzeSkillGap tax role student).missingSkills = [] := by
      simp only [analyzeSkillGap]
      rw [hmatched, hmapid]
      apply List.filter_eq_nil_iff.mpr
      intro n hn
      have hc : (role.skills.mustHave.map SkillReq.name).contains n = true :=
        List.elem_iff.mpr hn
      intro hcontra
      rw [hc] at hcontra
      simp at hcontra
    exact ⟨hmiss, by simp only [analyzeSkillGap] at hmiss ⊢; rw [hmiss]; rfl⟩

/-- Witness for C7 (amended): title-cased must-have names round-trip
perfectly. -/
theorem skillGap_full_match_witness :
    (analyzeSkillGap [] titleRole ["Python"]).skillMatch = 1 ∧
    (analyzeSkillGap [] titleRole ["Python"]).missingSkills = [] := by
  have h := skillGap_full_match_spec [] titleRole ["Python"] (by decide) (by decide)
  refine ⟨h.1, (h.2 ?_).1⟩
  intro n hn
  have : n = "Python" := by simpa [titleRole] using hn
  subst this
  rfl

/-! #### Role lookup and the not-found result -/

theorem getRoleData_eq_none_iff (roles : List (String × RoleData)) (name : String) :
    getRoleData roles name = none ↔ roleAbsent roles name := by
  constructor
  · intro hnone
    unfold getRoleData at hnone
    cases hf1 : roles.find? (fun kv => kv.1 == name) with
    | some kv => rw [hf1] at hnone; simp at hnone
    | none =>
      rw [hf1] at hnone
      cases hf2 : roles.find? (fun kv => pyLower kv.1 == pyLower name) with
      | some kv => rw [hf2] at hnone; simp at hnone
      | none =>
        rw [hf2] at hnone
        cases hf3 : roles.find? (fun kv =>
            strContainsSub (pyLower kv.1) (pyLower name) ||
            strContainsSub (pyLower name) (pyLower kv.1)) with
        | some kv => rw [hf3] at hnone; simp at hnone
        | none =>
          intro kv hkv
          have p1 := List.find?_eq_none.mp hf1 kv hkv
          have p2 := List.find?_eq_none.mp hf2 kv hkv
          have p3 := List.find?_eq_none.mp hf3 kv hkv
          simp only [beq_iff_eq] at p1 p2
          simp only [Bool.or_eq_true, not_or, Bool.not_eq_true] at p3
          exact ⟨p1, p2, p3.1, p3.2⟩
  · intro habs
    have hf1 : roles.find? (fun kv => kv.1 == name) = none :=
      List.find?_eq_none.mpr fun kv hkv => by simp [(habs kv hkv).1]
    have hf2 : roles.find? (fun kv => pyLower kv.1 == pyLower name) = none :=
      List.find?_eq_none.mpr fun kv hkv => by simp [(habs kv hkv).2.1]
    have hf3 : roles.find? (fun kv =>
        strContainsSub (pyLower kv.1) (pyLower name) ||
        strContainsSub (pyLower name) (pyLower kv.1)) = none :=
      List.find?_eq_none.mpr fun kv hkv => by
        simp [(habs kv hkv).2.2.1, (habs kv hkv).2.2.2]
    unfold getRoleData
    rw [hf1, hf2, hf3]

/-- C8: `analyze_role_market` is total and branches explicitly: when the role
name has no exact, case-insensitive, or substring match in the catalog it
returns the explicit not-found result carrying an error string and the list of
available role names (never an exception — the embedding is a total function);
when some entry matches under any of the three criteria it returns a market
analysis. -/
theorem analyzeRoleMarket_notFound_spec (roles : List (String × RoleData))
    (tax : List TaxonomyEntry) (roleName : String) (skills : List String) :
    (roleAbsent roles roleName →
      analyzeRoleMarket roles tax roleName skills =
        .notFound ("Role '" ++ roleName ++ "' not found in market data")
          (roles.map Prod.fst)) ∧
    (¬ roleAbsent roles roleName →
      ∃ a, analyzeRoleMarket roles tax roleName skills = .analysis a) := by
  constructor
  · intro habs
    have hnone : getRoleData roles roleName = none :=
      (getRoleData_eq_none_iff roles roleName).mpr habs
    unfold analyzeRoleMarket
    rw [hnone]
  · intro hpresent
    cases hgd : getRoleData roles roleName with
    | none => exact absurd ((getRoleData_eq_none_iff roles roleName).mp hgd) hpresent
    | some rd =>
      unfold analyzeRoleMarket
      rw [hgd]
      exact ⟨_, rfl⟩

/-- Witness for C8: a one-role catalog rejects an unrelated query with the
not-found record listing the available role. -/
theorem analyzeRoleMarket_notFound_witness :
    analyzeRoleMarket [("Data Analyst", titleRole)] [] "Quantum Wrangler" [] =
      .notFound "Role 'Quantum Wrangler' not found in market data" ["Data Analyst"] :=
  (analyzeRoleMarket_notFound_spec [("Data Analyst", titleRole)] [] "Quantum Wrangler" []).1
    (by unfold roleAbsent; decide)

/-! #### AlternativeRanker score bounds -/

theorem rerouteSkillOverlap_bounds (tax : List TaxonomyEntry) (student : List String)
    (rs : RoleSkills) :
    0 ≤ rerouteSkillOverlap tax student rs ∧ rerouteSkillOverlap tax student rs ≤ 1 := by
  unfold rerouteSkillOverlap
  dsimp only
  split_ifs with hempty
  · norm_num
  · have hpos : 0 < (rs.mustHave.map SkillReq.name).length :=
      List.length_pos.mpr (by simpa [List.isEmpty_iff] using hempty)
    have hle : (((rs.mustHave.map SkillReq.name).map (normalizeSkill tax)).filter
        (fun req => (student.map (normalizeSkill tax)).any fun st =>
          rerouteSkillsMatch req st)).length ≤ (rs.mustHave.map SkillReq.name).length := by
      calc _ ≤ ((rs.mustHave.map SkillReq.name).map (normalizeSkill tax)).length :=
            List.length_filter_le _ _
        _ = _ := List.length_map _ _
    constructor
    · positivity
    · rw [div_le_one (by exact_mod_cast hpos)]
      exact_mod_cast hle

theorem rerouteMarketDemandScore_bounds (jc : ℕ) (trend : String) (gr : ℚ)
    (hg : 0 ≤ gr) :
    0 ≤ rerouteMarketDemandScore jc trend gr ∧ rerouteMarketDemandScore jc trend gr ≤ 1 := by
  have hbase : 0 ≤ min ((jc : ℚ) / 5000) 1 := le_min (by positivity) (by norm_num)
  have hmult : 0 ≤ trendMultiplier trend := by
    unfold trendMultiplier; split_ifs <;> norm_num
  have hbonus : 0 ≤ min (gr / 100) (2/10) := le_min (by positivity) (by norm_num)
  unfold rerouteMarketDemandScore
  exact ⟨le_min (by positivity) (by norm_num), min_le_right _ _⟩

theorem progressionStones_bounds (cp : CareerPaths) (alt orig : String) (v : ℚ)
    (h : progressionStones cp alt orig = some v) : 0 ≤ v ∧ v ≤ 1 := by
  unfold progressionStones at h
  cases hs : lookupDict cp.steppingStones orig with
  | none => rw [hs] at h; simp at h
  | some stones =>
    rw [hs] at h
    dsimp only at h
    cases hf : stones.find? fun st => pyLower st.intermediateRole == pyLower alt with
    | none => rw [hf] at h; simp at h
    | some st =>
      rw [hf] at h
      simp only [Option.some.injEq] at h
      subst h
      split_ifs <;> norm_num

theorem progressionGraph_bounds (cp : CareerPaths) (alt orig : String) (v : ℚ)
    (hprobs : ∀ entry ∈ cp.careerGraph, ∀ nr ∈ entry.2.typicalNextRoles,
      ∀ p, nr.transitionProbability = some p → 0 ≤ p ∧ p ≤ 1)
    (h : progressionGraph cp alt orig = some v) : 0 ≤ v ∧ v ≤ 1 := by
  unfold progressionGraph lookupDict at h
  cases hfind : cp.careerGraph.find? fun kv => kv.1 == alt with
  | none => rw [hfind] at h; simp at h
  | some kv =>
    rw [hfind] at h
    simp only [Option.map_some'] at h
    cases hnr : kv.2.typicalNextRoles.find? fun nr => pyLower nr.role == pyLower orig with
    | none => rw [hnr] at h; simp at h
    | some nr =>
      rw [hnr] at h
      simp only [Option.some.injEq] at h
      subst h
      have hkvmem := List.mem_of_find?_eq_some hfind
      have hnrmem := List.mem_of_find?_eq_some hnr
      cases hp : nr.transitionProbability with
      | some p =>
        have := hprobs kv hkvmem nr hnrmem p hp
        simpa [hp] using this
      | none =>
        simp only [Option.getD_none]
        norm_num

theorem progressionFallback_bounds (roles : List (String × RoleData)) (alt orig : String) :
    0 ≤ progressionFallback roles alt orig ∧ progressionFallback roles alt orig ≤ 1 := by
  unfold progressionFallback
  cases ha : lookupDict roles alt with
  | none => norm_num
  | some altData =>
    cases ho : lookupDict roles orig with
    | none => norm_num
    | some origData =>
      dsimp only
      split_ifs with hne
      · obtain ⟨-, horigne⟩ := hne
        set altSkills := (altData.skills.mustHave.map SkillReq.name).dedup with haltdef
        set origSkills := (origData.skills.mustHave.map SkillReq.name).dedup with horigdef
        have hnodup : (altSkills.filter fun sk => origSkills.contains sk).Nodup :=
          (List.nodup_dedup _).filter _
        have hsubset : (altSkills.filter fun sk => origSkills.contains sk) ⊆ origSkills := by
          intro x hx
          have := (List.mem_filter.mp hx).2
          exact List.elem_iff.mp this
        have hlen : (altSkills.filter fun sk => origSkills.contains sk).length ≤
            origSkills.length := (List.subperm_of_subset hnodup hsubset).length_le
        have hopos : 0 < origSkills.length := List.length_pos.mpr horigne
        constructor
        · positivity
        · have hratio : ((altSkills.filter fun sk => origSkills.contains sk).length : ℚ) /
              (origSkills.length : ℚ) ≤ 1 := by
            rw [div_le_one (by exact_mod_cast hopos)]
            exact_mod_cast hlen
          have hrnn : 0 ≤ ((altSkills.filter fun sk => origSkills.contains sk).length : ℚ) /
              (origSkills.length : ℚ) := by positivity
          nlinarith
      · norm_num

theorem progressionPotential_bounds (cp : CareerPaths) (roles : List (String × RoleData))
    (alt orig : String)
    (hprobs : ∀ entry ∈ cp.careerGraph, ∀ nr ∈ entry.2.typicalNextRoles,
      ∀ p, nr.transitionProbability = some p → 0 ≤ p ∧ p ≤ 1) :
    0 ≤ progressionPotential cp roles alt orig ∧ progressionPotential cp roles alt orig ≤ 1 := by
  unfold progressionPotential
  cases hs : progressionStones cp alt orig with
  | some v => exact progressionStones_bounds cp alt orig v hs
  | none =>
    cases hg : progressionGraph cp alt orig with
    | some v => exact progressionGraph_bounds cp alt orig v hprobs hg
    | none => exact progressionFallback_bounds roles alt orig

theorem rerouteBarrierScore_bounds (eb : ℚ) (exp : String) :
    0 ≤ rerouteBarrierScore eb exp ∧ rerouteBarrierScore eb exp ≤ 1 := by
  unfold rerouteBarrierScore
  dsimp only
  split_ifs with hle
  · norm_num
  · push_neg at hle
    constructor
    · exact le_max_right _ _
    · apply max_le _ (by norm_num)
      nlinarith

/-- C6 counterexample: `total_score` is *not* in [0,1] for every valid input:
the growth bonus `min(growth_rate/100, 0.2)` is unbounded below for negative
growth rates, so `market_demand_score` (and with it `total_score`) can be
driven arbitrarily negative.  For a role with 0 jobs, stable trend,
growth_rate = -1000, no must-have skills and a 0.9 entry barrier scored for a
beginner, `market_demand_score = -10` and `total_score = -2.94 < 0` (all via
the claim's own formula — the spec asserts the same formula, which is in the
code, but its [0,1] range claim fails). -/
theorem totalScore_negative_counterexample :
    rerouteMarketDemandScore 0 "stable" (-1000) = -10 ∧
    (calculateRoleScore [] ⟨[], []⟩ [] "Backend Developer" negRole []
      "Data Scientist" "beginner").totalScore = -147/50 ∧
    (calculateRoleScore [] ⟨[], []⟩ [] "Backend Developer" negRole []
      "Data Scientist" "beginner").totalScore < 0 := by
  have hmult : trendMultiplier "stable" = 1 := by simp [trendMultiplier]
  have hms : rerouteMarketDemandScore 0 "stable" (-1000) = -10 := by
    unfold rerouteMarketDemandScore
    rw [hmult]
    norm_num
  have hso : rerouteSkillOverlap [] [] negRole.skills = 0 := rfl
  have hpp : progressionPotential ⟨[], []⟩ [] "Backend Developer" "Data Scientist" = 3/10 := rfl
  have hbase : experienceBaseline "beginner" = 2/10 := by simp [experienceBaseline]
  have hbs : rerouteBarrierScore (9/10) "beginner" = 0 := by
    unfold rerouteBarrierScore
    rw [hbase]
    norm_num
  have htot : (calculateRoleScore [] ⟨[], []⟩ [] "Backend Developer" negRole []
      "Data Scientist" "beginner").totalScore = -147/50 := by
    show rerouteSkillOverlap [] [] negRole.skills * (35/100) +
        rerouteMarketDemandScore 0 "stable" (-1000) * (30/100) +
        progressionPotential ⟨[], []⟩ [] "Backend Developer" "Data Scientist" * (20/100) +
        rerouteBarrierScore (9/10) "beginner" * (15/100) = -147/50
    rw [hso, hms, hpp, hbs]
    norm_num
  exact ⟨hms, htot, by rw [htot]; norm_num⟩

/-- C6 (amended): `total_score` is the weighted sum
`0.35*skill_overlap + 0.30*market_demand + 0.20*progression + 0.15*barrier`
with weights summing to 1, and it lies in [0,1] provided the role's
year-over-year growth rate is non-negative (so the growth bonus is
non-negative) and every transition probability in the career graph lies in
[0,1]; for negative growth rates the bound fails (see the counterexample). -/
theorem totalScore_bounds (tax : List TaxonomyEntry) (cp : CareerPaths)
    (roles : List (String × RoleData)) (roleName : String) (roleData : RoleData)
    (studentSkills : List String) (failedRole experienceLevel : String)
    (hgrowth : 0 ≤ roleData.marketData.growthRate)
    (hprobs : ∀ entry ∈ cp.careerGraph, ∀ nr ∈ entry.2.typicalNextRoles,
      ∀ p, nr.transitionProbability = some p → 0 ≤ p ∧ p ≤ 1) :
    (calculateRoleScore tax cp roles roleName roleData studentSkills failedRole
        experienceLevel).totalScore =
      (35/100) * (calculateRoleScore tax cp roles roleName roleData studentSkills failedRole
        experienceLevel).skillOverlap +
      (30/100) * (calculateRoleScore tax cp roles roleName roleData studentSkills failedRole
        experienceLevel).marketDemand +
      (20/100) * (calculateRoleScore tax cp roles roleName roleData studentSkills failedRole
        experienceLevel).progressionPotential +
      (15/100) * (calculateRoleScore tax cp roles roleName roleData studentSkills failedRole
        experienceLevel).easeOfEntry ∧
    (35/100 + 30/100 + 20/100 + 15/100 : ℚ) = 1 ∧
    0 ≤ (calculateRoleScore tax cp roles roleName roleData studentSkills failedRole
        experienceLevel).totalScore ∧
    (calculateRoleScore tax cp roles roleName roleData studentSkills failedRole
        experienceLevel).totalScore ≤ 1 := by
  obtain ⟨hso1, hso2⟩ := rerouteSkillOverlap_bounds tax studentSkills roleData.skills
  obtain ⟨hms1, hms2⟩ := rerouteMarketDemandScore_bounds roleData.marketData.totalJobs
    roleData.marketData.trend roleData.marketData.growthRate hgrowth
  obtain ⟨hpp1, hpp2⟩ := progressionPotential_bounds cp roles roleName failedRole hprobs
  obtain ⟨hbs1, hbs2⟩ := rerouteBarrierScore_bounds roleData.requirements.entryBarrier
    experienceLevel
  refine ⟨by unfold calculateRoleScore; dsimp only; ring, by norm_num, ?_, ?_⟩ <;>
    · unfold calculateRoleScore
      dsimp only
      linarith

/-- Witness for C6 (amended): a zero-growth role's total score is in [0,1]. -/
theorem totalScore_bounds_witness :
    0 ≤ (calculateRoleScore [] ⟨[], []⟩ [] "Backend Developer" titleRole ["Python"]
      "Data Scientist" "beginner").totalScore ∧
    (calculateRoleScore [] ⟨[], []⟩ [] "Backend Developer" titleRole ["Python"]
      "Data Scientist" "beginner").totalScore ≤ 1 := by
  have h := totalScore_bounds [] ⟨[], []⟩ [] "Backend Developer" titleRole ["Python"]
    "Data Scientist" "beginner" (by norm_num [titleRole]) (by simp)
  exact ⟨h.2.2.1, h.2.2.2⟩

end CareerNav
